import Mathlib

/-!
Shallow embedding of the ingestion-and-analytics core of the vending
dashboard (src/components/charts.js AnalyticsManager, src/components/
inventory.js InventoryManager, src/components/websocket.js
WebSocketManager, and the helpers of src/unnamed/part_002 together with
the constants of src/unnamed/part_001).

Conventions of the embedding:
* JS numbers that hold money or delays are modelled as rationals; epoch
  timestamps as integers (milliseconds); counts as naturals.
* The host clock (`Date.now()`) is passed explicitly as a `now` argument.
* Local-time date arithmetic is modelled in a fixed UTC-like locale, as
  the spec fixes the locale ("all derived from timestamp in a fixed
  locale"): a calendar day is 86400000 ms starting at a multiple of it.
* Purely presentational derivations (label strings, currency formatting,
  `toDateString`, `changeFormatted`, generated random ids) are functions
  of fields that the embedding keeps, and are not re-modelled.
-/

namespace Vending

/-! ### Generic string helpers (JS semantics) -/

/-- Substring test via `List.isPrefixOf`: JS `hay.includes(needle)`. -/
def listHasSub (needle : List Char) : List Char → Bool
  | [] => needle.isEmpty
  | c :: t => needle.isPrefixOf (c :: t) || listHasSub needle t

/-- JS `hay.includes(needle)` on strings. -/
def strIncludes (hay needle : String) : Bool :=
  listHasSub needle.toList hay.toList

/-- ASCII lower-casing of one character. -/
def chToLower (c : Char) : Char :=
  if 65 ≤ c.toNat ∧ c.toNat ≤ 90 then Char.ofNat (c.toNat + 32) else c

/-- JS `String.prototype.toLowerCase` restricted to ASCII (the safe
character set of the product-name pattern). -/
def jsToLower (s : String) : String := String.mk (s.data.map chToLower)

/-- An ASCII whitespace character (the `\s` class on the inputs in
scope). -/
def isWsChar (c : Char) : Bool :=
  c = ' ' || c = '\t' || c = '\n' || c = '\r' || c = '\x0b' || c = '\x0c'

/-- JS `String.prototype.trim`. -/
def jsTrim (s : String) : String :=
  String.mk (((s.data.dropWhile isWsChar).reverse.dropWhile isWsChar).reverse)

/-- JS `x || d` on an optional string (the empty string is falsy; an
absent field and a present-but-undefined one behave alike). -/
def orStr (o : Option String) (d : String) : String :=
  match o with
  | some v => if v = "" then d else v
  | none => d

/-! ### Product mapping (constants.js `PRODUCT_MAPPING`) -/

structure ProdInfo where
  emoji : String
  category : String
  color : String
  deriving DecidableEq, Repr

def defaultInfo : ProdInfo := ⟨"🍿", "other", "#666666"⟩

/-- The table `PRODUCT_MAPPING` as an association list in JS object insertion
order, the `default` entry last. -/
def productMapping : List (String × ProdInfo) :=
  [ ("energy drink", ⟨"⚡", "beverages", "#ff6b6b"⟩),
    ("soda", ⟨"🥤", "beverages", "#4ecdc4"⟩),
    ("cola", ⟨"🥤", "beverages", "#45b7d1"⟩),
    ("pepsi", ⟨"🥤", "beverages", "#96ceb4"⟩),
    ("coke", ⟨"🥤", "beverages", "#feca57"⟩),
    ("water", ⟨"💧", "beverages", "#74b9ff"⟩),
    ("juice", ⟨"🧃", "beverages", "#fd79a8"⟩),
    ("coffee", ⟨"☕", "beverages", "#6c5ce7"⟩),
    ("tea", ⟨"🍵", "beverages", "#a29bfe"⟩),
    ("chocolate", ⟨"🍫", "snacks", "#8b4513"⟩),
    ("candy", ⟨"🍬", "snacks", "#ff69b4"⟩),
    ("chips", ⟨"🍿", "snacks", "#ffa500"⟩),
    ("popcorn", ⟨"🍿", "snacks", "#ffeb3b"⟩),
    ("pretzels", ⟨"🥨", "snacks", "#8bc34a"⟩),
    ("cookies", ⟨"🍪", "snacks", "#795548"⟩),
    ("nuts", ⟨"🥜", "snacks", "#ff9800"⟩),
    ("crackers", ⟨"🍘", "snacks", "#607d8b"⟩),
    ("gum", ⟨"🍬", "snacks", "#e91e63"⟩),
    ("sandwich", ⟨"🥪", "food", "#ff5722"⟩),
    ("salad", ⟨"🥗", "food", "#4caf50"⟩),
    ("fruit", ⟨"🍎", "food", "#f44336"⟩),
    ("yogurt", ⟨"🥛", "food", "#2196f3"⟩),
    ("protein", ⟨"💪", "food", "#9c27b0"⟩),
    ("granola", ⟨"🌾", "food", "#795548"⟩),
    ("default", defaultInfo) ]

/-- What `PRODUCT_MAPPING[product]` evaluates to when it is truthy: one
of the table's own entries, or — `PRODUCT_MAPPING` being a plain object
literal — a property inherited from `Object.prototype` (such as
`constructor` or the `__proto__` accessor), a truthy function/object
that carries no `category`/`emoji`/`color` and whose spread contributes
no enumerable properties. -/
inductive ProductLookup where
  | info (i : ProdInfo)
  | protoJunk
  deriving DecidableEq, Repr

/-- The inherited `Object.prototype` keys reachable by the lookup. The
lookup key is lower-cased first, and every other `Object.prototype`
property name (`toString`, `valueOf`, `hasOwnProperty`, ...) contains an
upper-case letter, so only these two can be hit. -/
def protoKeys : List String := ["constructor", "__proto__"]

/-- JS property access `x.category` on a lookup result (`undefined` on a
prototype-chain hit). -/
def lookupCategory : ProductLookup → Option String
  | .info i => some i.category
  | .protoJunk => none

/-- JS property access `x.emoji` on a lookup result. -/
def lookupEmoji : ProductLookup → Option String
  | .info i => some i.emoji
  | .protoJunk => none

/-- JS property access `x.color` on a lookup result. -/
def lookupColor : ProductLookup → Option String
  | .info i => some i.color
  | .protoJunk => none

/-- helpers.js `getProductInfo`: falsy/non-string names yield the
default entry; otherwise `if (PRODUCT_MAPPING[product])` on the
lower-cased trimmed name returns the table's own entry — or the truthy
inherited `Object.prototype` value for the keys of `protoKeys` —
followed by the first partial (substring) match over the table's own
entries skipping `default`, then the default entry. -/
def getProductInfo (productName : Option String) : ProductLookup :=
  match productName with
  | none => .info defaultInfo
  | some s =>
    if s = "" then .info defaultInfo
    else
      let product := jsTrim (jsToLower s)
      match (productMapping.find? (fun e => e.1 = product)).map (·.2) with
      | some info => .info info
      | none =>
        if product ∈ protoKeys then .protoJunk
        else
          match (productMapping.find?
              (fun e => e.1 ≠ "default" && strIncludes product e.1)).map (·.2) with
          | some info => .info info
          | none => .info defaultInfo

/-! ### Price extraction (helpers.js `extractPrice`, REGEX.PRICE) -/

/-- The value a JS field can carry in the `price` slot of a raw sale. -/
inductive PriceField where
  | pnum (q : ℚ)
  | pstr (s : String)
  /-- any value that is neither a number nor a string -/
  | pother
  deriving DecidableEq, Repr

/-- Decimal value of a digit run. -/
def digitsVal (l : List Char) : ℕ :=
  l.foldl (fun a c => a * 10 + (c.toNat - 48)) 0

/-- JS `parseFloat` applied to the capture of `/\$?(\d+\.?\d*)/`:
an integer part, an optional dot, an optional fraction. -/
def parseNumHere (l : List Char) : ℚ :=
  let ds := l.takeWhile Char.isDigit
  let rest := l.drop ds.length
  let fr := match rest with
    | '.' :: t => t.takeWhile Char.isDigit
    | _ => []
  (digitsVal ds : ℚ) + (digitsVal fr : ℚ) / (10 : ℚ) ^ fr.length

/-- Leftmost match of `REGEX.PRICE` in a string: the first position
where a digit starts (an optional `$` immediately before it does not
change the captured number). -/
def scanPrice : List Char → Option ℚ
  | [] => none
  | c :: t => if c.isDigit then some (parseNumHere (c :: t)) else scanPrice t

/-- JS `Number.prototype.toFixed(2)` followed by `parseFloat`: round to
two decimals. -/
def roundTo2 (q : ℚ) : ℚ := ((round (q * 100) : ℤ) : ℚ) / 100

/-- helpers.js `extractPrice`. -/
def extractPrice : Option PriceField → ℚ
  | some (.pnum q) => roundTo2 q
  | some (.pstr s) => (scanPrice s.toList).getD 0
  | some .pother => 0
  | none => 0

/-! ### Raw sale payloads and validation (helpers.js `validateSaleData`) -/

/-- The `timestamp` slot of a raw sale: a number, or any value for which
`new Date(x)` is an Invalid Date. (Values such as date strings that
parse to a valid date are outside the scope of the claims.) -/
inductive TsField where
  | tnum (t : ℤ)
  | tinvalid
  deriving DecidableEq, Repr

/-- A decoded JSON object in the sale position. `productName` is kept as
an optional string — the payloads of the claims carry string names. -/
structure SaleObj where
  productName : Option String
  price : Option PriceField
  timestamp : Option TsField
  deriving DecidableEq, Repr

/-- The argument of `validateSaleData`: an object, or any non-object. -/
inductive SaleInput where
  | obj (o : SaleObj)
  | nonObj
  deriving DecidableEq, Repr

inductive VErr where
  | notObject
  | nameRequired
  | nameInvalid
  | priceInvalid
  | tsInvalid
  deriving DecidableEq, Repr

/-- A character of the class `[a-zA-Z0-9\s\-_]` (ASCII whitespace). -/
def nameCharOk (c : Char) : Bool :=
  c.isAlpha || c.isDigit || c = ' ' || c = '-' || c = '_' ||
  c = '\t' || c = '\n' || c = '\r' || c = '\x0b' || c = '\x0c'

/-- The pattern `REGEX.PRODUCT_NAME = /^[a-zA-Z0-9\s\-_]{1,50}$/`. -/
def productNameOk (s : String) : Bool :=
  let l := s.toList
  decide (1 ≤ l.length) && decide (l.length ≤ 50) && l.all nameCharOk

/-- Largest epoch offset (ms) for which `new Date(n)` is valid. -/
def maxDateMs : ℕ := 8640000000000000

/-- helpers.js `validateSaleData`, returning the error list it builds. -/
def validateSaleData : SaleInput → List VErr
  | .nonObj => [.notObject]
  | .obj o =>
    (match o.productName with
     | none => [.nameRequired]
     | some n =>
       if n = "" then [.nameRequired]
       else if productNameOk n then [] else [.nameInvalid]) ++
    (match o.price with
     | none => []
     | some pf => if extractPrice (some pf) < 0 then [.priceInvalid] else []) ++
    (match o.timestamp with
     | none => []
     | some (.tnum t) => if t.natAbs ≤ maxDateMs then [] else [.tsInvalid]
     | some .tinvalid => [.tsInvalid])

/-! ### Percentage change (helpers.js) -/

/-- helpers.js `calculatePercentageChange`. -/
def calculatePercentageChange (current previous : ℚ) : ℚ :=
  if previous = 0 then (if 0 < current then 100 else 0)
  else ((current - previous) / previous) * 100

/-- Modelled from the spec sentence of C9, word for word: "when the
previous value equals zero the reported percent change is exactly 100 if
the current value is greater than zero and exactly 0 otherwise; when the
previous value is nonzero it is ((current - previous) / previous) *
100". Used only to compare against the source's formula. -/
def percentChangeOfSpec (current previous : ℚ) : ℚ :=
  if previous = 0 then (if 0 < current then 100 else 0)
  else ((current - previous) / previous) * 100

/-! ### Calendar arithmetic (fixed locale)

The JS code uses `Date` getters and setters in the host locale; the spec
fixes the locale, and the embedding realises it as UTC: milliseconds
since the epoch, civil dates via the standard days-from-civil
correspondence. -/

def msPerHour : ℤ := 3600000
def msPerDay : ℤ := 86400000

/-- Epoch day number of a timestamp (floor). -/
def dayNumOf (t : ℤ) : ℤ := Int.fdiv t msPerDay

/-- Midnight (start of the civil day) of a timestamp, as in
`new Date(y, m, d).getTime()`. -/
def midnightOf (t : ℤ) : ℤ := dayNumOf t * msPerDay

/-- JS `Date.prototype.getHours` in the fixed locale. -/
def jsHour (t : ℤ) : ℕ := ((Int.emod t msPerDay) / msPerHour).toNat

/-- JS `Date.prototype.getDay` in the fixed locale (epoch day 0 was a
Thursday, day-of-week 4). -/
def jsDayOfWeek (t : ℤ) : ℕ := (Int.emod (dayNumOf t + 4) 7).toNat

/-- Civil date (year, month 1-12, day 1-31) of an epoch day number. -/
def civilFromDays (z0 : ℤ) : ℤ × ℕ × ℕ :=
  let z := z0 + 719468
  let era := Int.fdiv z 146097
  let doe := (z - era * 146097).toNat
  let yoe := (doe - doe / 1460 + doe / 36524 - doe / 146096) / 365
  let doy := doe - (365 * yoe + yoe / 4 - yoe / 100)
  let mp := (5 * doy + 2) / 153
  let d := doy - (153 * mp + 2) / 5 + 1
  let m := if mp < 10 then mp + 3 else mp - 9
  ((yoe : ℤ) + era * 400 + (if m ≤ 2 then 1 else 0), m, d)

/-- Epoch day number of a civil date; a day beyond the month's end
overflows into the following months exactly as the JS `Date` setters
normalise it. -/
def daysFromCivil (y : ℤ) (m : ℕ) (d : ℕ) : ℤ :=
  let y' := y - (if m ≤ 2 then 1 else 0)
  let era := Int.fdiv y' 400
  let yoe := (y' - era * 400).toNat
  let mp := (m + 9) % 12
  let doy := (153 * mp + 2) / 5 + d - 1
  let doe := yoe * 365 + yoe / 4 - yoe / 100 + doy
  era * 146097 + (doe : ℤ) - 719468

/-- The shift `monthStart.setMonth(today.getMonth() - 1)` applied to the midnight
of `now`: same day-of-month one civil month earlier, with JS overflow
normalisation. -/
def monthAgoStart (now : ℤ) : ℤ :=
  let (y, m, d) := civilFromDays (dayNumOf now)
  let ym := if m = 1 then (y - 1, 12) else (y, m - 1)
  (daysFromCivil ym.1 ym.2 1 + (d - 1)) * msPerDay

/-! ### Time periods (helpers.js `getTimePeriod`, `filterByTimePeriod`) -/

inductive Period where
  | today
  | week
  | month
  | all
  deriving DecidableEq, Repr

/-- Start of the reporting window of `getTimePeriod` (its `end` is
always `now`). -/
def getTimePeriodStart (p : Period) (now : ℤ) : ℤ :=
  match p with
  | .today => midnightOf now
  | .week => midnightOf now - 7 * msPerDay
  | .month => monthAgoStart now
  | .all => 0

/-! ### Enriched sale events (charts.js `enrichSaleData`)

`id`, `date`, `weekOfYear`, `month` and `year` are also attached by the
source; they are pure functions of `timestamp` (or fresh random ids)
that no embedded operation ever reads back, and are left out. -/

structure Enriched where
  productName : String
  price : ℚ
  timestamp : ℤ
  hour : ℕ
  dayOfWeek : ℕ
  category : Option String
  emoji : Option String
  color : Option String
  deriving DecidableEq, Repr, Inhabited

/-- charts.js `enrichSaleData`. `sale.timestamp || Date.now()` treats a
missing or zero timestamp as falsy; an Invalid-Date timestamp never
reaches enrichment because `addSale` validates first (the `tinvalid`
case is given the ingestion time). The `productName` of a validated
sale is always a present, non-empty string. The enrichment fields read
off the lookup result are `undefined` (`none`) on a prototype-chain
hit. -/
def enrichSaleData (o : SaleObj) (now : ℤ) : Enriched :=
  let ts : ℤ := match o.timestamp with
    | some (.tnum t) => if t = 0 then now else t
    | some .tinvalid => now
    | none => now
  let info := getProductInfo o.productName
  { productName := o.productName.getD ""
    price := extractPrice o.price
    timestamp := ts
    hour := jsHour ts
    dayOfWeek := jsDayOfWeek ts
    category := lookupCategory info
    emoji := lookupEmoji info
    color := lookupColor info }

/-- helpers.js `filterByTimePeriod` on the enriched working set. -/
def filterByTimePeriod (data : List Enriched) (p : Period) (now : ℤ) :
    List Enriched :=
  let start := getTimePeriodStart p now
  data.filter (fun e => decide (start ≤ e.timestamp) && decide (e.timestamp ≤ now))

/-! ### Statistics (helpers.js `calculateStats`) -/

/-- Stable ascending insertion into a list sorted by a rational key. -/
def insertAscQ (x : ℚ) : List ℚ → List ℚ
  | [] => [x]
  | y :: t => if x < y then x :: y :: t else y :: insertAscQ x t

/-- Ascending numeric sort, as `[...numbers].sort((a, b) => a - b)`. -/
def sortAscQ : List ℚ → List ℚ
  | [] => []
  | x :: t => insertAscQ x (sortAscQ t)

/-- JS `numbers.reduce((acc, val) => acc + val, 0)`. -/
def sumQ (l : List ℚ) : ℚ := l.foldl (· + ·) 0

structure StatsR where
  count : ℕ
  sum : ℚ
  average : ℚ
  min : ℚ
  max : ℚ
  median : ℚ
  deriving DecidableEq, Repr

/-- helpers.js `calculateStats`. -/
def calculateStats (numbers : List ℚ) : StatsR :=
  if numbers.isEmpty then ⟨0, 0, 0, 0, 0, 0⟩
  else
    let sorted := sortAscQ numbers
    let s := sumQ numbers
    let count := numbers.length
    { count := count
      sum := s
      average := s / count
      min := sorted.getD 0 0
      max := sorted.getD (sorted.length - 1) 0
      median :=
        if count % 2 = 0 then
          (sorted.getD (count / 2 - 1) 0 + sorted.getD (count / 2) 0) / 2
        else sorted.getD (count / 2) 0 }

/-! ### Product / category aggregation (charts.js `calculateAnalytics`) -/

/-- One `forEach` step over the `productCounts` / `productRevenue`
objects: bump the counters of a key, keeping JS object insertion order
(first occurrence first). -/
def bumpAgg (k : String) (pr : ℚ) : List (String × ℕ × ℚ) → List (String × ℕ × ℚ)
  | [] => [(k, 1, pr)]
  | (k', c, r) :: t =>
    if k' = k then (k', c + 1, r + pr) :: t else (k', c, r) :: bumpAgg k pr t

structure TopProduct where
  name : String
  count : ℕ
  revenue : ℚ
  percentage : ℚ
  emoji : Option String
  color : Option String
  deriving DecidableEq, Repr

structure CatEntry where
  name : String
  count : ℕ
  revenue : ℚ
  percentage : ℚ
  deriving DecidableEq, Repr

/-- Stable descending insertion by a count key: JS
`sort((a, b) => b.count - a.count)` (stable sort). -/
def insertDescBy (key : α → ℕ) (x : α) : List α → List α
  | [] => [x]
  | y :: t => if key y ≤ key x then x :: y :: t else y :: insertDescBy key x t

def sortDescBy (key : α → ℕ) : List α → List α
  | [] => []
  | x :: t => insertDescBy key x (sortDescBy key t)

/-- Increment slot `i` of a histogram. -/
def listIncr : List ℕ → ℕ → List ℕ
  | [], _ => []
  | x :: t, 0 => (x + 1) :: t
  | x :: t, n + 1 => x :: listIncr t n

/-! ### Time series (charts.js `generateTimeSeriesData`,
helpers.js `groupByTimeInterval`) -/

inductive Interval where
  | hour
  | day
  | week
  deriving DecidableEq, Repr

/-- The grouping key of `groupByTimeInterval`: the JS key strings
`y-m-d-h`, `y-m-d` and week-start `y-m-d` are in bijection with the
hour number, the day number, and the week-start day number of the fixed
locale. -/
def bucketKey (iv : Interval) (t : ℤ) : ℤ :=
  match iv with
  | .hour => Int.fdiv t msPerHour
  | .day => dayNumOf t
  | .week => dayNumOf t - Int.emod (dayNumOf t + 4) 7

/-- Append a sale to its bucket, keeping first-occurrence bucket order
(JS object key insertion order) and in-bucket arrival order (push). -/
def addToGroup (k : ℤ) (e : Enriched) :
    List (ℤ × List Enriched) → List (ℤ × List Enriched)
  | [] => [(k, [e])]
  | (k', es) :: t =>
    if k' = k then (k', es ++ [e]) :: t else (k', es) :: addToGroup k e t

def groupByTimeInterval (data : List Enriched) (iv : Interval) :
    List (ℤ × List Enriched) :=
  data.foldl (fun gs e => addToGroup (bucketKey iv e.timestamp) e gs) []

/-- A point of the series; the `label` and `date` strings of the source
are locale formattings of `timestamp` and are not re-modelled. -/
structure TimePoint where
  timestamp : ℤ
  sales : ℕ
  revenue : ℚ
  averagePrice : ℚ
  deriving DecidableEq, Repr

/-- Stable ascending insertion by timestamp: the final
`sort((a, b) => a.timestamp - b.timestamp)`. -/
def insertAscTP (x : TimePoint) : List TimePoint → List TimePoint
  | [] => [x]
  | y :: t => if x.timestamp < y.timestamp then x :: y :: t
              else y :: insertAscTP x t

def sortAscTP : List TimePoint → List TimePoint
  | [] => []
  | x :: t => insertAscTP x (sortAscTP t)

/-- charts.js `generateTimeSeriesData`: interval per period, group, one
point per group from its first sale's timestamp, sorted ascending. -/
def generateTimeSeriesData (data : List Enriched) (p : Period) : List TimePoint :=
  let iv : Interval := match p with
    | .today => .hour
    | .week => .day
    | .month => .day
    | .all => .week
  let pts := (groupByTimeInterval data iv).map (fun g =>
    let revenue := sumQ (g.2.map (·.price))
    { timestamp := (g.2.headD default).timestamp
      sales := g.2.length
      revenue := revenue
      averagePrice := revenue / (g.2.length : ℚ) : TimePoint })
  sortAscTP pts

/-! ### Insights (charts.js `generateInsights`)

An insight's `title`/`message`/`icon` strings are fixed templates over
snapshot fields; the embedding keeps which rule fired. -/

inductive Insight where
  | firstSale
  | milestone
  | dominance
  | highAverage
  | peakHour
  | popularCategory
  deriving DecidableEq, Repr

def listMaxN (l : List ℕ) : ℕ := l.foldl Nat.max 0

/-! ### Snapshots, comparison, manager state -/

structure CompBlock where
  current : ℚ
  previous : ℚ
  change : ℚ
  deriving DecidableEq, Repr

structure Comparison where
  sales : CompBlock
  revenue : CompBlock
  averagePurchase : CompBlock
  deriving DecidableEq, Repr

structure Analytics where
  period : Period
  totalSales : ℕ
  totalRevenue : ℚ
  averagePurchase : ℚ
  minPurchase : Option ℚ
  maxPurchase : Option ℚ
  medianPurchase : Option ℚ
  topProducts : List TopProduct
  topCategories : List CatEntry
  hourlyDistribution : List ℕ
  dailyDistribution : List ℕ
  timeSeriesData : List TimePoint
  insights : List Insight
  comparisonToPrevious : Option Comparison
  deriving DecidableEq, Repr

/-- charts.js `generateInsights` applied to the snapshot under
construction (insight rules in source order, at most 5 kept). -/
def generateInsights (a : Analytics) : List Insight :=
  ((if 0 < a.totalSales then
      (if a.totalSales = 1 then [Insight.firstSale]
       else if 100 ≤ a.totalSales then [Insight.milestone] else [])
    else []) ++
   (match a.topProducts.head? with
    | some tp => if 30 < tp.percentage then [Insight.dominance] else []
    | none => []) ++
   (if 0 < a.totalRevenue then
      (if 5 < a.averagePurchase then [Insight.highAverage] else [])
    else []) ++
   (if 0 < listMaxN a.hourlyDistribution then [Insight.peakHour] else []) ++
   (if 1 < a.topCategories.length then [Insight.popularCategory] else [])).take 5

/-- charts.js `calculateBasicStats` (count cast to a rational). -/
structure BasicStats where
  count : ℚ
  revenue : ℚ
  average : ℚ
  deriving DecidableEq, Repr

def calculateBasicStats (data : List Enriched) : BasicStats :=
  let count := data.length
  let revenue := sumQ (data.map (·.price))
  { count := count
    revenue := revenue
    average := if 0 < count then revenue / (count : ℚ) else 0 }

/-- charts.js `getPreviousPeriodData`: the window immediately preceding
the period's, `[startTime, endTime)`. -/
def getPreviousPeriodData (salesData : List Enriched) (p : Period) (now : ℤ) :
    List Enriched :=
  match p with
  | .today =>
    let startTime := midnightOf now - msPerDay
    let endTime := startTime + msPerDay
    salesData.filter (fun e =>
      decide (startTime ≤ e.timestamp) && decide (e.timestamp < endTime))
  | .week =>
    let endTime := now - 7 * msPerDay
    let startTime := endTime - 7 * msPerDay
    salesData.filter (fun e =>
      decide (startTime ≤ e.timestamp) && decide (e.timestamp < endTime))
  | .month =>
    let endTime := now - 30 * msPerDay
    let startTime := endTime - 30 * msPerDay
    salesData.filter (fun e =>
      decide (startTime ≤ e.timestamp) && decide (e.timestamp < endTime))
  | .all => []

/-- charts.js `getComparisonToPrevious` (reads the full working set). -/
def getComparisonToPrevious (salesData : List Enriched) (p : Period) (now : ℤ) :
    Option Comparison :=
  let currentData := filterByTimePeriod salesData p now
  let previousData := getPreviousPeriodData salesData p now
  if previousData.isEmpty then none
  else
    let cs := calculateBasicStats currentData
    let ps := calculateBasicStats previousData
    some
      { sales := ⟨cs.count, ps.count, calculatePercentageChange cs.count ps.count⟩
        revenue := ⟨cs.revenue, ps.revenue,
          calculatePercentageChange cs.revenue ps.revenue⟩
        averagePurchase := ⟨cs.average, ps.average,
          calculatePercentageChange cs.average ps.average⟩ }

/-- charts.js `calculateAnalytics` over the period-filtered `data`;
`salesData` is the manager's full working set, read by the comparison. -/
def calculateAnalytics (salesData data : List Enriched) (p : Period) (now : ℤ) :
    Analytics :=
  let base : Analytics :=
    { period := p
      totalSales := data.length
      totalRevenue := 0
      averagePurchase := 0
      minPurchase := none
      maxPurchase := none
      medianPurchase := none
      topProducts := []
      topCategories := []
      hourlyDistribution := List.replicate 24 0
      dailyDistribution := List.replicate 7 0
      timeSeriesData := []
      insights := []
      comparisonToPrevious := none }
  if data.isEmpty then base
  else
    let stats := calculateStats (data.map (·.price))
    let prodAgg := data.foldl (fun acc e => bumpAgg e.productName e.price acc) []
    let topProducts := (sortDescBy (·.count) (prodAgg.map (fun g =>
      { name := g.1
        count := g.2.1
        revenue := g.2.2
        percentage := ((g.2.1 : ℚ) / (data.length : ℚ)) * 100
        emoji := lookupEmoji (getProductInfo (some g.1))
        color := lookupColor (getProductInfo (some g.1)) : TopProduct }))).take 10
    let catAgg := data.foldl (fun acc e =>
      bumpAgg (orStr e.category "other") e.price acc) []
    let topCategories := sortDescBy (·.count) (catAgg.map (fun g =>
      { name := g.1
        count := g.2.1
        revenue := g.2.2
        percentage := ((g.2.1 : ℚ) / (data.length : ℚ)) * 100 : CatEntry }))
    let hourly := data.foldl (fun acc e => listIncr acc e.hour)
      (List.replicate 24 0)
    let daily := data.foldl (fun acc e => listIncr acc e.dayOfWeek)
      (List.replicate 7 0)
    let a1 := { base with
      totalRevenue := stats.sum
      averagePurchase := stats.average
      minPurchase := some stats.min
      maxPurchase := some stats.max
      medianPurchase := some stats.median
      topProducts := topProducts
      topCategories := topCategories
      hourlyDistribution := hourly
      dailyDistribution := daily
      timeSeriesData := generateTimeSeriesData data p }
    let a2 := { a1 with insights := generateInsights a1 }
    { a2 with comparisonToPrevious := getComparisonToPrevious salesData p now }

/-- A cached snapshot entry (`{ data, timestamp }`). -/
structure CacheEntry where
  data : Analytics
  timestamp : ℤ
  deriving DecidableEq, Repr

/-- The constant `CONFIG.DATA.CACHE_EXPIRY` (24 hours in ms). -/
def cacheExpiry : ℤ := 86400000

/-- The AnalyticsManager's state: the in-memory working set
(most-recent-first), the snapshot cache keyed by period, and the
persisted event log of the Event Store (the IndexedDB `sales` table the
`storage.addSale` call appends to). -/
structure AState where
  salesData : List Enriched
  cacheToday : Option CacheEntry
  cacheWeek : Option CacheEntry
  cacheMonth : Option CacheEntry
  cacheAll : Option CacheEntry
  storageLog : List Enriched
  deriving DecidableEq, Repr

def initAState : AState := ⟨[], none, none, none, none, []⟩

def cacheGet (st : AState) : Period → Option CacheEntry
  | .today => st.cacheToday
  | .week => st.cacheWeek
  | .month => st.cacheMonth
  | .all => st.cacheAll

def cacheSet (st : AState) (p : Period) (e : CacheEntry) : AState :=
  match p with
  | .today => { st with cacheToday := some e }
  | .week => { st with cacheWeek := some e }
  | .month => { st with cacheMonth := some e }
  | .all => { st with cacheAll := some e }

/-- charts.js `invalidateCache` (`this.cache.clear()`). -/
def invalidateCache (st : AState) : AState :=
  { st with cacheToday := none, cacheWeek := none,
            cacheMonth := none, cacheAll := none }

/-- The record `storage.addSale` persists: the enriched sale with a
storage-normalised timestamp (`sale.timestamp || Date.now()`); its
regenerated random id and `date` string are not re-modelled. -/
def storageRecordOf (e : Enriched) (now : ℤ) : Enriched :=
  { e with timestamp := if e.timestamp = 0 then now else e.timestamp }

/-- The success path of `addSale` on an already-validated object:
enrich, unshift into the working set, persist via the Event Store,
clear the snapshot cache. -/
def addSaleCore (st : AState) (o : SaleObj) (now : ℤ) : AState :=
  let e := enrichSaleData o now
  invalidateCache
    { st with salesData := e :: st.salesData,
              storageLog := st.storageLog ++ [storageRecordOf e now] }

/-- charts.js `AnalyticsManager.addSale`: validate, enrich, unshift into
the working set, persist, clear the snapshot cache; `false` with no
state change on invalid input. -/
def addSale (st : AState) (s : SaleInput) (now : ℤ) : AState × Bool :=
  if validateSaleData s = [] then
    match s with
    | .obj o => (addSaleCore st o now, true)
    | .nonObj => (st, false)
  else (st, false)

/-- The recompute-and-cache path of `getAnalytics`. -/
def getAnalyticsFresh (st : AState) (p : Period) (now : ℤ) :
    Analytics × AState :=
  let filteredData := filterByTimePeriod st.salesData p now
  let analytics := calculateAnalytics st.salesData filteredData p now
  (analytics, cacheSet st p ⟨analytics, now⟩)

/-- charts.js `AnalyticsManager.getAnalytics`: serve a live cache entry
when `useCache` holds, else recompute and overwrite the entry. -/
def getAnalytics (st : AState) (p : Period) (useCache : Bool) (now : ℤ) :
    Analytics × AState :=
  match useCache, cacheGet st p with
  | true, some e =>
    if now - e.timestamp < cacheExpiry then (e.data, st)
    else getAnalyticsFresh st p now
  | true, none => getAnalyticsFresh st p now
  | false, _ => getAnalyticsFresh st p now

/-! ## Inventory Tracker (src/components/inventory.js) -/

/-- One tracked product record. -/
structure Product where
  id : String
  name : String
  currentStock : ℤ
  minStock : ℤ
  maxStock : ℤ
  price : ℚ
  category : String
  supplier : String
  lastRestocked : ℤ
  lastUpdated : ℤ
  isActive : Bool
  totalSales : ℕ
  emoji : Option String
  color : Option String
  deriving DecidableEq, Repr

/-- The raw argument of `addProduct` (fields may be absent). -/
structure ProductInput where
  id : Option String := none
  name : Option String := none
  currentStock : Option ℤ := none
  minStock : Option ℤ := none
  maxStock : Option ℤ := none
  price : Option ℚ := none
  category : Option String := none
  supplier : Option String := none
  lastRestocked : Option ℤ := none
  isActive : Option Bool := none
  totalSales : Option ℕ := none
  deriving DecidableEq, Repr

/-- JS `parseInt(x) || d`: an absent field parses to `NaN` and a zero is
falsy, so both fall back to the default. -/
def orInt (o : Option ℤ) (d : ℤ) : ℤ :=
  match o with
  | some v => if v = 0 then d else v
  | none => d

/-- JS `x || d` on an optional rational. -/
def orRat (o : Option ℚ) (d : ℚ) : ℚ :=
  match o with
  | some v => if v = 0 then d else v
  | none => d

/-- The manager's state: the `Map` of records (JS `Map.set` keeps the
position of an existing key and appends a new one), the per-record alert
timestamps, and the relevant flags (`autoTrackEnabled`; the
`lowStockAlerts` setting read by `checkStockLevel`). -/
structure InvState where
  inventory : List (String × Product)
  stockAlerts : List (String × ℤ)
  autoTrack : Bool
  lowStockAlerts : Bool
  deriving DecidableEq, Repr

def initInvState : InvState := ⟨[], [], true, true⟩

/-- JS `Map.prototype.get`. -/
def invGet (l : List (String × Product)) (k : String) : Option Product :=
  (l.find? (fun e => e.1 = k)).map (·.2)

/-- JS `Map.prototype.set`: replace in place, or append a new key. -/
def invSet (l : List (String × Product)) (k : String) (v : Product) :
    List (String × Product) :=
  match l with
  | [] => [(k, v)]
  | (k', v') :: t => if k' = k then (k, v) :: t else (k', v') :: invSet t k v

def alertGet (l : List (String × ℤ)) (k : String) : Option ℤ :=
  (l.find? (fun e => e.1 = k)).map (·.2)

def alertSet (l : List (String × ℤ)) (k : String) (v : ℤ) : List (String × ℤ) :=
  match l with
  | [] => [(k, v)]
  | (k', v') :: t => if k' = k then (k, v) :: t else (k', v') :: alertSet t k v

/-- The 30-minute alert cooldown of `checkStockLevel`. -/
def alertCooldown : ℤ := 1800000

/-- The threshold classification of `checkStockLevel` after its cooldown
gate: an alert timestamp is recorded for `out` (stock ≤ 0, which takes
precedence) and for `low` (stock ≤ `minStock || lowStockThreshold`). -/
def checkStockLevelCore (st : InvState) (p : Product) (now : ℤ) : InvState :=
  if p.currentStock ≤ 0 then
    { st with stockAlerts := alertSet st.stockAlerts p.id now }
  else if p.currentStock ≤ (if p.minStock = 0 then 5 else p.minStock) then
    { st with stockAlerts := alertSet st.stockAlerts p.id now }
  else st

/-- inventory.js `checkStockLevel`: rate-limited out-of-stock / low-stock
alerts; the notification side effect itself is external. -/
def checkStockLevel (st : InvState) (p : Product) (now : ℤ) : InvState :=
  if !st.lowStockAlerts then st
  else
    match alertGet st.stockAlerts p.id with
    | some last =>
      if now - last < alertCooldown then st
      else checkStockLevelCore st p now
    | none => checkStockLevelCore st p now

inductive PErr where
  | nameRequired
  | stockNegative
  | priceNegative
  | minStockNegative
  deriving DecidableEq, Repr

/-- inventory.js `validateProductData` on the built record. -/
def validateProductData (p : Product) : List PErr :=
  (if p.name = "" ∨ jsTrim p.name = "" then [PErr.nameRequired] else []) ++
  (if p.currentStock < 0 then [PErr.stockNegative] else []) ++
  (if p.price < 0 then [PErr.priceNegative] else []) ++
  (if p.minStock < 0 then [PErr.minStockNegative] else [])

/-- The record object `addProduct` builds: defaults first, then
`...getProductInfo(productData.name)` spread last. When the lookup
yields a table entry, its `category`/`emoji`/`color` overwrite the
earlier `category: productData.category || 'other'` line; when it is a
prototype-chain hit, the spread contributes no enumerable properties,
so the caller's category line survives and `emoji`/`color` stay absent.
A falsy (absent or empty) id draws a generated one, surrogate
`product_<now>`. -/
def buildProduct (pd : ProductInput) (now : ℤ) : Product :=
  let lk := getProductInfo pd.name
  { id := orStr pd.id ("product_" ++ toString now)
    name := pd.name.getD ""
    currentStock := orInt pd.currentStock 0
    minStock := orInt pd.minStock 5
    maxStock := orInt pd.maxStock 100
    price := orRat pd.price 0
    category :=
      match lk with
      | .info i => i.category
      | .protoJunk => orStr pd.category "other"
    supplier := pd.supplier.getD ""
    lastRestocked := orInt pd.lastRestocked now
    lastUpdated := now
    isActive := pd.isActive ≠ some false
    totalSales := pd.totalSales.getD 0
    emoji := lookupEmoji lk
    color := lookupColor lk }

/-- inventory.js `addProduct`: build, validate (reject with no mutation
on failure), store under the record's id, alert-check. -/
def addProduct (st : InvState) (pd : ProductInput) (now : ℤ) :
    InvState × Option Product :=
  let p := buildProduct pd now
  if validateProductData p = [] then
    let st1 := { st with inventory := invSet st.inventory p.id p }
    (checkStockLevel st1 p now, some p)
  else (st, none)

inductive StockReason where
  | manual
  | restock
  | sale
  deriving DecidableEq, Repr

/-- inventory.js `updateStock`: clamp to `Math.max(0, parseInt(newStock))`,
stamp `lastUpdated`, track `lastRestocked` on an increasing restock,
store, alert-check; `none` (caught error) if the id is unknown. -/
def updateStock (st : InvState) (productId : String) (newStock : ℤ)
    (reason : StockReason) (now : ℤ) : InvState × Option Product :=
  match invGet st.inventory productId with
  | none => (st, none)
  | some p =>
    let p' := { p with
      currentStock := max 0 newStock
      lastUpdated := now
      lastRestocked :=
        if 0 < newStock - p.currentStock ∧ reason = .restock then now
        else p.lastRestocked }
    let st1 := { st with inventory := invSet st.inventory productId p' }
    (checkStockLevel st1 p' now, some p')

/-- inventory.js `handleSaleEvent`: fuzzy find, decrement by one clamped
at zero and bump the record's sales counter; else auto-create at stock
zero when auto-tracking is on. -/
def findProductByName (st : InvState) (productName : String) : Option Product :=
  let normalized := jsTrim (jsToLower productName)
  match (st.inventory.find? (fun e =>
      jsTrim (jsToLower e.2.name) = normalized)).map (·.2) with
  | some p => some p
  | none =>
    (st.inventory.find? (fun e =>
      strIncludes (jsToLower e.2.name) normalized ||
      strIncludes normalized (jsToLower e.2.name))).map (·.2)

def handleSaleEvent (st : InvState) (saleData : SaleObj) (now : ℤ) : InvState :=
  match saleData.productName with
  | none => st
  | some nm =>
    if nm = "" then st
    else
      match findProductByName st nm with
      | some p =>
        let newStock := max 0 (p.currentStock - 1)
        let bumped := { p with totalSales := p.totalSales + 1 }
        let st1 := { st with inventory := invSet st.inventory p.id bumped }
        (updateStock st1 p.id newStock .sale now).1
      | none =>
        if st.autoTrack then
          (addProduct st
            { name := some nm
              currentStock := some 0
              price := some (extractPrice saleData.price)
              category := lookupCategory (getProductInfo (some nm)) } now).1
        else st

/-- The operations the C4 claim ranges over, each with its wall-clock
instant. -/
inductive InvOp where
  | saleEv (saleData : SaleObj)
  | setStock (productId : String) (newStock : ℤ) (reason : StockReason)
  deriving DecidableEq, Repr

def applyInvOp (st : InvState) : InvOp × ℤ → InvState
  | (.saleEv sd, now) => handleSaleEvent st sd now
  | (.setStock productId v reason, now) => (updateStock st productId v reason now).1

def runInvOps (st : InvState) (ops : List (InvOp × ℤ)) : InvState :=
  ops.foldl applyInvOp st

/-- The C4 invariant: no stored record has negative stock. -/
def StocksOk (st : InvState) : Prop :=
  ∀ kp ∈ st.inventory, 0 ≤ kp.2.currentStock

instance (st : InvState) : Decidable (StocksOk st) :=
  inferInstanceAs (Decidable (∀ kp ∈ st.inventory, 0 ≤ kp.2.currentStock))

/-! ## Stream Client (src/components/websocket.js) -/

inductive ConnState where
  | connecting
  | connected
  | disconnected
  | reconnecting
  deriving DecidableEq, Repr

inductive WSReady where
  | connecting
  | open
  | closed
  deriving DecidableEq, Repr

/-- The WebSocketManager's state. Timers are modelled by armed flags: an
armed timer is pending and will fire unless cleared. The reconnect
`setTimeout` handle is anonymous in the source (never stored), which the
model reflects by `disconnect` leaving `reconnectTimerArmed` untouched. -/
structure WSState where
  connectionState : ConnState
  reconnectAttempts : ℕ
  maxReconnectAttempts : ℕ
  reconnectDelay : ℚ
  heartbeatOn : Bool
  connTimeoutArmed : Bool
  reconnectTimerArmed : Bool
  isManualClose : Bool
  ws : Option WSReady
  deriving DecidableEq, Repr

/-- A fresh manager: `CONNECTION_STATES.DISCONNECTED`, attempt counter 0,
`CONFIG.WEBSOCKET` limits (base delay 3000 ms, 10 attempts). -/
def initWSState : WSState :=
  { connectionState := .disconnected
    reconnectAttempts := 0
    maxReconnectAttempts := 10
    reconnectDelay := 3000
    heartbeatOn := false
    connTimeoutArmed := false
    reconnectTimerArmed := false
    isManualClose := false
    ws := none }

/-- websocket.js `connect`: a no-op while the transport is connecting or
open; otherwise open a transport, arm the 10 s connection timeout. -/
def connectWS (st : WSState) : WSState :=
  if st.ws = some .connecting ∨ st.ws = some .open then st
  else
    { st with isManualClose := false
              connectionState := .connecting
              ws := some .connecting
              connTimeoutArmed := true }

/-- websocket.js `disconnect`: set the manual-close flag, stop the
heartbeat, clear the connection timeout, close and drop the transport,
transition to disconnected. The reconnect timer has no stored handle
and is not cleared. -/
def disconnectWS (st : WSState) : WSState :=
  { st with isManualClose := true
            heartbeatOn := false
            connTimeoutArmed := false
            ws := none
            connectionState := .disconnected }

/-- The state change of `handleReconnect`'s scheduling branch: bump the
attempt counter, enter `reconnecting`, arm the reconnect timer. -/
def reconnectStep (st : WSState) : WSState :=
  { st with reconnectAttempts := st.reconnectAttempts + 1
            connectionState := .reconnecting
            reconnectTimerArmed := true }

/-- websocket.js `handleReconnect`, one call: returns the new state, the
delay it scheduled (if any) and whether `maxReconnectAttemptsReached`
was dispatched. `jitter` stands for this call's `Math.random() * 1000`;
the delay is `min(reconnectDelay * 2^(attempts - 1) + jitter, 30000)`
with `attempts` the already-incremented counter. -/
def handleReconnect (st : WSState) (jitter : ℚ) :
    WSState × Option ℚ × Bool :=
  if st.isManualClose then (st, none, false)
  else if st.maxReconnectAttempts ≤ st.reconnectAttempts then
    ({ st with connectionState := .disconnected }, none, true)
  else
    (reconnectStep st,
     some (min (st.reconnectDelay * 2 ^ st.reconnectAttempts + jitter) 30000),
     false)

/-- The scheduled reconnect timer firing: the timer is spent, and the
callback connects only when the manual-close flag is still clear. -/
def fireReconnectTimer (st : WSState) : WSState :=
  let st0 := { st with reconnectTimerArmed := false }
  if st0.isManualClose then st0 else connectWS st0

/-- A run of the reconnection policy in which every attempt fails (the
fired timer's `connect` opens a transport whose closure re-enters
`handleReconnect` with the attempt counter preserved). `fuel` bounds the
number of `handleReconnect` calls; the run stops by itself when no timer
is scheduled. Returns the scheduled delays and how many times the
`maxReconnectAttemptsReached` signal was dispatched. -/
def reconnectRun (jit : ℕ → ℚ) : WSState → ℕ → List ℚ × ℕ
  | _, 0 => ([], 0)
  | st, fuel + 1 =>
    let r := handleReconnect st (jit st.reconnectAttempts)
    match r.2.1 with
    | none => ([], if r.2.2 then 1 else 0)
    | some d =>
      let rest := reconnectRun jit r.1 fuel
      (d :: rest.1, rest.2)

/-! ## Stream Client message handling (websocket.js `onMessage`) -/

/-- A decoded JSON value in the positions the handler inspects. Arrays
and `null` have `typeof === 'object'` but can never carry a truthy
`productName`, and follow the same path as the other non-sale values. -/
inductive JsValue where
  | vstr (s : String)
  | vnum (q : ℚ)
  | vbool (b : Bool)
  | vnull
  | varr
  | vobj (o : SaleObj)
  deriving DecidableEq, Repr

/-- The inbound wire payload as presented to `onMessage`: either
`JSON.parse` succeeded with a value, or it threw. -/
inductive Inbound where
  | parsed (v : JsValue)
  | parseFail
  deriving DecidableEq, Repr

/-- JS `JSON.parse(event.data)` with the raw-string fallback. -/
def decodeData (i : Inbound) (raw : String) : JsValue :=
  match i with
  | .parsed v => v
  | .parseFail => .vstr raw

/-- JS truthiness of `data.productName`. -/
def truthyName (o : SaleObj) : Bool :=
  match o.productName with
  | some s => s ≠ ""
  | none => false

/-- The message event `onMessage` dispatches on the non-drop path. -/
structure Emitted where
  data : JsValue
  raw : String
  timestamp : ℤ
  deriving DecidableEq, Repr

/-- websocket.js `onMessage`: decode, validate only values that look
like a sale (object with truthy `productName`), drop those that fail
validation, emit everything else. -/
def onMessage (i : Inbound) (raw : String) (now : ℤ) : Option Emitted :=
  let data := decodeData i raw
  match data with
  | .vobj o =>
    if truthyName o ∧ validateSaleData (.obj o) ≠ [] then none
    else some ⟨data, raw, now⟩
  | _ => some ⟨data, raw, now⟩

/-- Modelled from the spec sentences of C7: a payload is dropped at the
Stream Client boundary precisely when it decodes to an object carrying a
(truthy) product-name field that fails Purchase Event validation. -/
def droppedSaleOfSpec (i : Inbound) (raw : String) : Prop :=
  ∃ o, decodeData i raw = .vobj o ∧ truthyName o = true ∧
    validateSaleData (.obj o) ≠ []

/-! ### Derived notions used by the claims -/

/-- Ingest a sequence of raw sales in order, each at its own wall-clock
instant, via `addSale`. -/
def ingest (st : AState) (l : List (SaleInput × ℤ)) : AState :=
  l.foldl (fun st x => (addSale st x.1 x.2).1) st

/-- The enriched event a (valid) raw sale becomes at its ingestion
instant. A non-object input never reaches enrichment. -/
def enrichOf (x : SaleInput × ℤ) : Enriched :=
  match x.1 with
  | .obj o => enrichSaleData o x.2
  | .nonObj => default

/-- Hypothesis of the (amended) C1 claim for one ingested sale: the raw
sale is valid, and its enriched timestamp lies between the epoch and the
query instant (in particular it is not in the future at query time). -/
def ValidTimely (qnow : ℤ) (x : SaleInput × ℤ) : Prop :=
  validateSaleData x.1 = [] ∧ 0 ≤ (enrichOf x).timestamp ∧
    (enrichOf x).timestamp ≤ qnow

instance (qnow : ℤ) (x : SaleInput × ℤ) : Decidable (ValidTimely qnow x) :=
  inferInstanceAs (Decidable (_ ∧ _ ∧ _))

/-- Whether the cached entry of a period (if any) is still inside its
TTL at instant `t`. -/
def entryLive (st : AState) (p : Period) (t : ℤ) : Bool :=
  match cacheGet st p with
  | some e => decide (t - e.timestamp < cacheExpiry)
  | none => true

/-! ### Concrete payloads and states used in witnesses and
counterexamples -/

/-- A well-formed sale with a numeric price of 2 and the given
timestamp. -/
def colaSale (t : ℤ) : SaleInput :=
  .obj ⟨some "Cola", some (.pnum 2), some (.tnum t)⟩

/-- A well-formed sale with a currency-formatted string price. -/
def chipsSale : SaleInput :=
  .obj ⟨some "Chips", some (.pstr "$1.50"), some (.tnum 40)⟩

/-- The rejected payload of the spec scenario
`{productName: "", price: 1}`. -/
def emptyNameSale : SaleInput := .obj ⟨some "", some (.pnum 1), none⟩

/-- A tracked product created from explicit caller data (with a
caller-supplied category that the name lookup overrides). -/
def colaProductInput : ProductInput :=
  { name := some "Cola Classic", currentStock := some 1, minStock := some 2,
    price := some 2, category := some "snacks" }

/-- A product whose lower-cased name, `constructor`, is an inherited
`Object.prototype` key of the lookup table. -/
def ctorProductInput : ProductInput :=
  { name := some "constructor", currentStock := some 3,
    price := some 1, category := some "snacks" }

/-- A product whose name matches no entry of the lookup table. -/
def widgetProductInput : ProductInput :=
  { name := some "Widget Gadget", currentStock := some 3,
    price := some 1, category := some "snacks" }

/-- The decoded payload of a sale of "cola" (matched by substring
against the tracked "Cola Classic"). -/
def colaSaleObj : SaleObj := ⟨some "cola", some (.pnum 2), none⟩

/-- The record `addProduct` stores for `colaProductInput` at instant 5. -/
def colaRecord : Product :=
  { id := "product_5", name := "Cola Classic", currentStock := 1, minStock := 2,
    maxStock := 100, price := 2, category := "beverages", supplier := "",
    lastRestocked := 5, lastUpdated := 5, isActive := true, totalSales := 0,
    emoji := some "🥤", color := some "#45b7d1" }

/-- The same record after one matching sale at instant 10. -/
def colaRecordSold : Product :=
  { colaRecord with currentStock := 0, totalSales := 1, lastUpdated := 10 }

/-- A manager configured with a base reconnect delay below the 1000 ms
jitter bound. -/
def lowBaseWS : WSState :=
  { initWSState with reconnectDelay := 1, maxReconnectAttempts := 2 }

/-- Jitter draws 999 ms on the first attempt and 0 afterwards. -/
def spikeJitter : ℕ → ℚ := fun k => if k = 0 then 999 else 0

/-! ## Theorems -/

set_option maxRecDepth 10000

attribute [local semireducible] Rat.add Rat.mul Rat.sub Rat.inv Rat.ofScientific

/-! ### C9 — percentage-change formula -/

/-- C9: for every current and previous value used in the
period-over-period comparison, the reported percent change is exactly
100 when the previous value is zero and the current one positive, 0 when
both are nonpositive-previous-zero, and `((current - previous) /
previous) * 100` otherwise; and `getComparisonToPrevious` reports
exactly this formula of each block's current and previous values. -/
theorem C9_percent_change :
    (∀ current previous : ℚ,
      calculatePercentageChange current previous =
        percentChangeOfSpec current previous)
    ∧ (∀ current : ℚ,
      calculatePercentageChange current 0 = if 0 < current then 100 else 0)
    ∧ (∀ current previous : ℚ, previous ≠ 0 →
      calculatePercentageChange current previous =
        ((current - previous) / previous) * 100)
    ∧ (∀ salesData p now,
      (getComparisonToPrevious salesData p now).map (fun c =>
        (c.sales.change, c.revenue.change, c.averagePurchase.change)) =
      (getComparisonToPrevious salesData p now).map (fun c =>
        (calculatePercentageChange c.sales.current c.sales.previous,
         calculatePercentageChange c.revenue.current c.revenue.previous,
         calculatePercentageChange c.averagePurchase.current
           c.averagePurchase.previous))) := by
  refine ⟨fun c p => rfl, fun c => by simp [calculatePercentageChange],
    fun c p hp => by simp [calculatePercentageChange, hp], ?_⟩
  intro salesData p now
  unfold getComparisonToPrevious
  by_cases h : (getPreviousPeriodData salesData p now).isEmpty <;> simp [h]

/-- Witness for C9 at concrete values: a doubling from 2 to 5 is +150%,
and a rise from a zero baseline is reported as a flat +100%. -/
theorem C9_witness :
    calculatePercentageChange 5 2 = 150 ∧ calculatePercentageChange 3 0 = 100 := by
  constructor
  · rw [C9_percent_change.2.2.1 5 2 (by norm_num)]; norm_num
  · rw [C9_percent_change.2.1 3]; norm_num

/-! ### C7 — Stream Client message validation boundary -/

/-- C7 counterexample: the inbound payload `"hello"` is not a JSON
object (`JSON.parse` throws and the handler falls back to the raw
string), yet `onMessage` forwards it as a message event instead of
dropping it, contrary to the claim that non-JSON-object payloads are
silently dropped. -/
theorem C7_counterexample :
    onMessage .parseFail "hello" 0 =
      some ⟨.vstr "hello", "hello", 0⟩ := rfl

/-- C7 amended: `onMessage` drops a payload (emits no message event)
exactly when the decoded value is an object carrying a truthy
product-name field that fails Purchase Event validation; every other
payload — including non-JSON strings, non-object JSON values, and
objects without a truthy product name — is forwarded to subscribers. -/
theorem C7_theorem (i : Inbound) (raw : String) (now : ℤ) :
    onMessage i raw now = none ↔ droppedSaleOfSpec i raw := by
  rcases h : decodeData i raw with s | q | b | _ | _ | o
  case vobj =>
    by_cases hc : truthyName o = true ∧ validateSaleData (.obj o) ≠ [] <;>
      simp [onMessage, droppedSaleOfSpec, h, hc]
  all_goals simp [onMessage, droppedSaleOfSpec, h]

/-- Witness for C7 at a concrete dropped payload: an object with an
invalid product name is dropped. -/
theorem C7_witness :
    (onMessage (.parsed (.vobj ⟨some "Bad!Name", some (.pnum 1), none⟩))
        "x" 0 = none) ∧
    droppedSaleOfSpec (.parsed (.vobj ⟨some "Bad!Name", some (.pnum 1), none⟩))
        "x" := by
  have h := C7_theorem
    (.parsed (.vobj ⟨some "Bad!Name", some (.pnum 1), none⟩)) "x" 0
  have hd : onMessage
      (.parsed (.vobj ⟨some "Bad!Name", some (.pnum 1), none⟩)) "x" 0 =
      none := by decide
  exact ⟨hd, h.mp hd⟩

/-! ### C8 — disconnect and pending timers -/

/-- C8 counterexample: starting from a fresh manager whose failed
connection entered `handleReconnect` (arming the reconnection timer),
`disconnect()` leaves that timer armed — the source never stores the
`setTimeout` handle, so the timer is not cancelled and fires after
`disconnect()` returns, contrary to the claim that every pending timer
is cancelled. -/
theorem C8_counterexample :
    (disconnectWS (handleReconnect initWSState 0).1).reconnectTimerArmed =
      true := rfl

/-- C8 amended: `disconnect()` cancels the heartbeat interval and the
connection-establishment timeout and transitions to `disconnected` with
the manual-close flag set; a scheduled reconnection timer is left armed
and may still fire afterwards, but its callback re-checks the
manual-close flag and performs no connection attempt, and a further
`handleReconnect` call is likewise a no-op — so no reconnection ever
occurs after `disconnect()`. -/
theorem C8_theorem (st : WSState) (jitter : ℚ) :
    (disconnectWS st).heartbeatOn = false ∧
    (disconnectWS st).connTimeoutArmed = false ∧
    (disconnectWS st).isManualClose = true ∧
    (disconnectWS st).connectionState = .disconnected ∧
    (disconnectWS st).reconnectTimerArmed = st.reconnectTimerArmed ∧
    fireReconnectTimer (disconnectWS st) =
      { disconnectWS st with reconnectTimerArmed := false } ∧
    handleReconnect (disconnectWS st) jitter =
      (disconnectWS st, none, false) := by
  refine ⟨rfl, rfl, rfl, rfl, rfl, ?_, ?_⟩
  · simp [fireReconnectTimer, disconnectWS]
  · simp [handleReconnect, disconnectWS]

/-! ### Shared lemmas on the analytics state -/

theorem cacheGet_invalidateCache (st : AState) (p : Period) :
    cacheGet (invalidateCache st) p = none := by
  cases p <;> rfl

theorem cacheGet_addSaleCore (st : AState) (o : SaleObj) (now : ℤ)
    (p : Period) : cacheGet (addSaleCore st o now) p = none := by
  cases p <;> rfl

theorem cacheGet_cacheSet (st : AState) (p : Period) (e : CacheEntry) :
    cacheGet (cacheSet st p e) p = some e := by
  cases p <;> rfl

/-- A successful `addSale` went through the validated-object path. -/
theorem addSale_success (st : AState) (s : SaleInput) (now : ℤ)
    (h : (addSale st s now).2 = true) :
    ∃ o, s = .obj o ∧ validateSaleData s = [] ∧
      (addSale st s now).1 = addSaleCore st o now := by
  by_cases hv : validateSaleData s = []
  · cases s with
    | obj o => exact ⟨o, rfl, hv, by simp [addSale, hv]⟩
    | nonObj => simp [validateSaleData] at hv
  · simp [addSale, hv] at h

/-- With no live cache entry, `getAnalytics` takes the recompute path. -/
theorem getAnalytics_of_cache_none (st : AState) (p : Period)
    (useCache : Bool) (now : ℤ) (h : cacheGet st p = none) :
    getAnalytics st p useCache now = getAnalyticsFresh st p now := by
  unfold getAnalytics
  rw [h]
  cases useCache <;> rfl

/-! ### C6 — invalid payloads leave the analytics state unchanged -/

/-- C6: a raw sale that fails validation makes `addSale` return `false`
with the manager's state (working set, snapshot cache, persisted log)
exactly as before, so any later snapshot is the one the prior state
yields. -/
theorem C6_theorem (st : AState) (s : SaleInput) (now : ℤ)
    (h : validateSaleData s ≠ []) :
    addSale st s now = (st, false) ∧
    ∀ p useCache now2,
      getAnalytics (addSale st s now).1 p useCache now2 =
        getAnalytics st p useCache now2 := by
  have h1 : addSale st s now = (st, false) := by
    unfold addSale
    rw [if_neg h]
  exact ⟨h1, fun p uc n2 => by rw [h1]⟩

/-- Witness for C6: the spec scenario `{productName: "", price: 1}` is
rejected and the snapshot still reports zero sales. -/
theorem C6_witness :
    validateSaleData emptyNameSale ≠ [] ∧
    addSale initAState emptyNameSale 7 = (initAState, false) ∧
    ((getAnalytics (addSale initAState emptyNameSale 7).1 .all true 7).1).totalSales
      = 0 := by
  have hv : validateSaleData emptyNameSale ≠ [] := by decide
  have h := C6_theorem initAState emptyNameSale 7 hv
  refine ⟨hv, h.1, ?_⟩
  rw [h.1]
  decide

/-! ### C2 — successful ingestion clears every cached snapshot -/

/-- C2: every successful `addSale` clears the snapshot cache for all
periods at once, so any following `getAnalytics` call (any period, any
instant, cache enabled or not) takes the recompute path on the working
set rather than serving a previously cached entry. -/
theorem C2_theorem (st : AState) (s : SaleInput) (now : ℤ)
    (h : (addSale st s now).2 = true) :
    (∀ p, cacheGet (addSale st s now).1 p = none) ∧
    (∀ p useCache now2,
      getAnalytics (addSale st s now).1 p useCache now2 =
        getAnalyticsFresh (addSale st s now).1 p now2) := by
  obtain ⟨o, rfl, hv, hst⟩ := addSale_success st s now h
  constructor
  · intro p
    rw [hst]
    exact cacheGet_addSaleCore st o now p
  · intro p uc n2
    exact getAnalytics_of_cache_none _ p uc n2 (by rw [hst]; exact cacheGet_addSaleCore st o now p)

/-- Witness for C2: after ingesting one concrete sale, the cache is
empty for every period and a `week` query recomputes. -/
theorem C2_witness :
    (∀ p, cacheGet (addSale initAState (colaSale 5) 5).1 p = none) ∧
    getAnalytics (addSale initAState (colaSale 5) 5).1 .week true 6 =
      getAnalyticsFresh (addSale initAState (colaSale 5) 5).1 .week 6 := by
  have h := C2_theorem initAState (colaSale 5) 5 (by decide)
  exact ⟨h.1, h.2 .week true 6⟩

/-! ### Shared lemmas on the inventory state -/

theorem checkStockLevelCore_inventory (st : InvState) (p : Product)
    (now : ℤ) : (checkStockLevelCore st p now).inventory = st.inventory := by
  unfold checkStockLevelCore
  split_ifs <;> rfl

theorem checkStockLevel_inventory (st : InvState) (p : Product) (now : ℤ) :
    (checkStockLevel st p now).inventory = st.inventory := by
  unfold checkStockLevel
  split
  · rfl
  · split
    · split
      · rfl
      · exact checkStockLevelCore_inventory _ _ _
    · exact checkStockLevelCore_inventory _ _ _

theorem invGet_invSet_self (l : List (String × Product)) (k : String)
    (v : Product) : invGet (invSet l k v) k = some v := by
  induction l with
  | nil => simp [invSet, invGet, List.find?]
  | cons hd tl ih =>
    by_cases hk : hd.1 = k
    · simp [invSet, hk, invGet, List.find?]
    · simpa [invSet, hk, invGet, List.find?] using ih

/-! ### C10 — the product-name lookup and caller categories -/

/-- C10 counterexample: the name "constructor" passes `addProduct`'s
validation but lower-cases to an inherited `Object.prototype` key, so
`if (PRODUCT_MAPPING[product])` is truthy and `getProductInfo` returns
the inherited function rather than a table entry; spreading it over the
record contributes nothing, so `addProduct({name: "constructor",
category: "snacks"})` stores the caller-supplied category `snacks` —
not the lookup's value, and not the `other` fallback — with no
`emoji`/`color` at all. The claim's universal overwrite is false. -/
theorem C10_counterexample :
    getProductInfo ctorProductInput.name = .protoJunk ∧
    (addProduct initInvState ctorProductInput 7).2.isSome = true ∧
    ((addProduct initInvState ctorProductInput 7).2.map
        fun p => (p.category, p.emoji, p.color)) =
      some ("snacks", none, none) := by
  exact ⟨by decide, by decide, by decide⟩

/-- C10 amended: for every `addProduct` call whose product name does not
hit the lookup table's prototype chain (its lower-cased trimmed name is
not an inherited `Object.prototype` key such as `constructor` or
`__proto__`, so `getProductInfo` yields a table entry `i`), the stored
record takes its `category`, `emoji` and `color` from `i` — the lookup
is spread last over the record, so any caller-supplied category is
overwritten, and unmatched names fall back to the default entry's
`other` — and the stored record is retrievable under its id. -/
theorem C10_theorem (st : InvState) (pd : ProductInput) (now : ℤ)
    (i : ProdInfo) (hl : getProductInfo pd.name = .info i)
    (h : (addProduct st pd now).2.isSome = true) :
    ((addProduct st pd now).2.map fun p => (p.category, p.emoji, p.color)) =
      some (i.category, some i.emoji, some i.color) ∧
    ∀ p, (addProduct st pd now).2 = some p →
      invGet ((addProduct st pd now).1).inventory p.id = some p := by
  by_cases hv : validateProductData (buildProduct pd now) = []
  · have hsnd : (addProduct st pd now).2 = some (buildProduct pd now) := by
      simp [addProduct, hv]
    have hfst : (addProduct st pd now).1 =
        checkStockLevel
          { st with inventory :=
              invSet st.inventory (buildProduct pd now).id (buildProduct pd now) }
          (buildProduct pd now) now := by
      simp [addProduct, hv]
    constructor
    · rw [hsnd, Option.map_some']
      simp [buildProduct, hl, lookupEmoji, lookupColor]
    · intro p hp
      rw [hsnd] at hp
      obtain rfl := (Option.some.injEq _ _).mp hp
      rw [hfst, checkStockLevel_inventory]
      exact invGet_invSet_self _ _ _
  · simp [addProduct, hv] at h

/-- Witness for C10: a caller-supplied category `snacks` on
"Cola Classic" is stored as the lookup's `beverages`, and the unmatched
name "Widget Gadget" is stored as the fallback `other`. -/
theorem C10_witness :
    getProductInfo colaProductInput.name = .info ⟨"🥤", "beverages", "#45b7d1"⟩ ∧
    ((addProduct initInvState colaProductInput 5).2.map
        fun p => (p.category, p.emoji, p.color)) =
      some ("beverages", some "🥤", some "#45b7d1") ∧
    ((addProduct initInvState widgetProductInput 6).2.map
        fun p => (p.category, p.emoji, p.color)) =
      some ("other", some "🍿", some "#666666") ∧
    colaProductInput.category = some "snacks" := by
  have hcola : getProductInfo colaProductInput.name =
      .info ⟨"🥤", "beverages", "#45b7d1"⟩ := by decide
  have hwidget : getProductInfo widgetProductInput.name = .info defaultInfo := by
    decide
  have h1 := (C10_theorem initInvState colaProductInput 5 _ hcola (by decide)).1
  have h2 := (C10_theorem initInvState widgetProductInput 6 _ hwidget
    (by decide)).1
  exact ⟨hcola, h1, h2.trans (by decide), rfl⟩

/-! ### Shared lemmas for C1 -/

theorem foldl_add_shift (l : List ℚ) (a : ℚ) :
    l.foldl (· + ·) a = a + l.sum := by
  induction l generalizing a with
  | nil => simp
  | cons x t ih => simp [ih, add_assoc]

theorem sumQ_eq_sum (l : List ℚ) : sumQ l = l.sum := by
  simpa [sumQ] using foldl_add_shift l 0

theorem calculateAnalytics_totalSales (sd data : List Enriched) (p : Period)
    (now : ℤ) : (calculateAnalytics sd data p now).totalSales = data.length := by
  by_cases h : data.isEmpty <;> simp [calculateAnalytics, h]

theorem calculateAnalytics_totalRevenue (sd data : List Enriched) (p : Period)
    (now : ℤ) :
    (calculateAnalytics sd data p now).totalRevenue =
      sumQ (data.map (·.price)) := by
  by_cases h : data.isEmpty
  · have : data = [] := List.isEmpty_iff.mp h
    subst this
    simp [calculateAnalytics, sumQ]
  · have hm : (data.map (·.price)).isEmpty = false := by
      cases data with
      | nil => simp at h
      | cons a t => rfl
    simp [calculateAnalytics, h, calculateStats, hm]

/-- A validated input is an object. -/
theorem validate_nil_obj (s : SaleInput) (h : validateSaleData s = []) :
    ∃ o, s = .obj o := by
  cases s with
  | obj o => exact ⟨o, rfl⟩
  | nonObj => simp [validateSaleData] at h

theorem addSale_fst_cases (st : AState) (s : SaleInput) (now : ℤ) :
    (addSale st s now).1 = st ∨
    ∃ o, s = .obj o ∧ (addSale st s now).1 = addSaleCore st o now := by
  by_cases hv : validateSaleData s = []
  · obtain ⟨o, rfl⟩ := validate_nil_obj s hv
    exact Or.inr ⟨o, rfl, by simp [addSale, hv]⟩
  · exact Or.inl (by simp [addSale, hv])

theorem ingest_cacheGet (l : List (SaleInput × ℤ)) (st : AState) (p : Period)
    (h : cacheGet st p = none) : cacheGet (ingest st l) p = none := by
  induction l generalizing st with
  | nil => exact h
  | cons x t ih =>
    have hx : cacheGet (addSale st x.1 x.2).1 p = none := by
      rcases addSale_fst_cases st x.1 x.2 with h1 | ⟨o, _, h1⟩
      · rw [h1]; exact h
      · rw [h1]; exact cacheGet_addSaleCore st o x.2 p
    exact ih _ hx

theorem ingest_salesData (l : List (SaleInput × ℤ)) (st : AState)
    (h : ∀ x ∈ l, validateSaleData x.1 = []) :
    (ingest st l).salesData = (l.map enrichOf).reverse ++ st.salesData := by
  induction l generalizing st with
  | nil => simp [ingest]
  | cons x t ih =>
    have hx := h x (List.mem_cons_self x t)
    obtain ⟨o, ho⟩ := validate_nil_obj x.1 hx
    have hstep : (addSale st x.1 x.2).1 = addSaleCore st o x.2 := by
      rw [ho] at hx ⊢
      simp [addSale, hx]
    have henr : enrichOf x = enrichSaleData o x.2 := by
      simp [enrichOf, ho]
    have hrest : (ingest st (x :: t)).salesData =
        (t.map enrichOf).reverse ++ (addSaleCore st o x.2).salesData := by
      rw [← hstep]
      exact ih _ (fun y hy => h y (List.mem_cons_of_mem _ hy))
    rw [hrest]
    show (t.map enrichOf).reverse ++ (enrichSaleData o x.2 :: st.salesData) = _
    rw [← henr]
    simp

/-! ### C1 — totals of the all-time snapshot -/

/-- C1 counterexample: the sale `{productName: "Cola", price: 2,
timestamp: -5}` is valid (a pre-epoch instant is a valid `Date`) and its
timestamp is not in the future, yet after ingesting it the all-time
snapshot reports `totalSales = 0`, because `getTimePeriod('all')` starts
the window at epoch 0 and the filter drops the event. The claim's
`totalSales = n` fails for `n = 1`. -/
theorem C1_counterexample :
    validateSaleData (colaSale (-5)) = [] ∧
    (addSale initAState (colaSale (-5)) 10).2 = true ∧
    ((-5 : ℤ) ≤ 10) ∧
    ((getAnalytics (ingest initAState [(colaSale (-5), 10)]) .all true 100).1).totalSales
      = 0 := by
  refine ⟨by decide, by decide,
    by norm_num, by decide⟩

/-- C1 amended: for every sequence of valid sale events ingested in
order via `addSale`, each with an enriched timestamp that is nonnegative
(at or after the epoch) and not in the future at query time, the
all-time snapshot's `totalSales` is the number of events and its
`totalRevenue` is the sum of their enriched prices. -/
theorem C1_theorem (l : List (SaleInput × ℤ)) (qnow : ℤ)
    (h : ∀ x ∈ l, ValidTimely qnow x) :
    ((getAnalytics (ingest initAState l) .all true qnow).1).totalSales =
      l.length ∧
    ((getAnalytics (ingest initAState l) .all true qnow).1).totalRevenue =
      (l.map fun x => (enrichOf x).price).sum := by
  have hcache : cacheGet (ingest initAState l) .all = none :=
    ingest_cacheGet l initAState .all rfl
  rw [getAnalytics_of_cache_none _ _ _ _ hcache]
  have hsd : (ingest initAState l).salesData = (l.map enrichOf).reverse :=
    (ingest_salesData l initAState (fun x hx => (h x hx).1)).trans
      (by simp [initAState])
  have hfil : filterByTimePeriod (ingest initAState l).salesData .all qnow =
      (l.map enrichOf).reverse := by
    rw [hsd]
    unfold filterByTimePeriod getTimePeriodStart
    apply List.filter_eq_self.mpr
    intro e he
    obtain ⟨x, hx, rfl⟩ : ∃ x ∈ l, enrichOf x = e := by
      simpa using List.mem_reverse.mp he
    have h2 := h x hx
    simp [h2.2.1, h2.2.2]
  show (calculateAnalytics _ _ _ _).totalSales = _ ∧
    (calculateAnalytics _ _ _ _).totalRevenue = _
  rw [calculateAnalytics_totalSales, calculateAnalytics_totalRevenue, hfil,
    sumQ_eq_sum]
  constructor
  · simp
  · rw [List.map_reverse, List.sum_reverse, List.map_map]
    rfl

/-- Witness for C1 at two concrete sales (a numeric price 2 and a
currency-string price "$1.50"): the all-time snapshot reports 2 sales
and revenue 7/2. -/
theorem C1_witness :
    (∀ x ∈ [(colaSale 20, (10 : ℤ)), (chipsSale, 45)], ValidTimely 100 x) ∧
    ((getAnalytics (ingest initAState [(colaSale 20, 10), (chipsSale, 45)])
        .all true 100).1).totalSales = 2 ∧
    ((getAnalytics (ingest initAState [(colaSale 20, 10), (chipsSale, 45)])
        .all true 100).1).totalRevenue = 7 / 2 := by
  have hv : ∀ x ∈ [(colaSale 20, (10 : ℤ)), (chipsSale, 45)],
      ValidTimely 100 x := by decide
  have h := C1_theorem [(colaSale 20, 10), (chipsSale, 45)] 100 hv
  refine ⟨hv, h.1, ?_⟩
  rw [h.2]
  decide

/-! ### C3 — idempotence of cached snapshot reads -/

/-- After a fresh (recomputing) call, a second read inside the TTL of
the entry the call stored returns the same snapshot and leaves the
state untouched. -/
theorem second_read_after_fresh (st : AState) (p : Period) (now t2 : ℤ)
    (h : t2 - now < cacheExpiry) :
    getAnalytics (getAnalyticsFresh st p now).2 p true t2 =
      ((getAnalyticsFresh st p now).1, (getAnalyticsFresh st p now).2) := by
  show getAnalytics (cacheSet st p _) p true t2 = _
  unfold getAnalytics
  rw [cacheGet_cacheSet]
  simp [h]
  rfl

/-- C3 counterexample: ingest a valid sale carrying the future timestamp
15 at instant 10 and cache the all-time snapshot at instant 10 (it
reports 0 sales, the event being in the future). A first `getAnalytics`
call at instant 86400009 serves that cached entry (0 sales); a second
call 2 ms later — well inside 24 hours of the first call, with no
`addSale` in between — finds the entry expired, recomputes, and returns
a different snapshot (1 sale). The two calls are not idempotent as the
claim states. -/
theorem C3_counterexample :
    ((getAnalytics
        (getAnalytics (addSale initAState (colaSale 15) 10).1 .all true 10).2
        .all true 86400009).1).totalSales = 0 ∧
    ((86400011 : ℤ) - 86400009 < cacheExpiry) ∧
    ((getAnalytics
        (getAnalytics
          (getAnalytics (addSale initAState (colaSale 15) 10).1 .all true 10).2
          .all true 86400009).2
        .all true 86400011).1).totalSales = 1 := by
  refine ⟨by decide, by decide,
    by decide⟩

/-- C3 amended: two `getAnalytics(period)` calls with `useCache = true`
and no intervening `addSale` return the identical cached snapshot (and
the second performs no recomputation and no state change) provided the
cache entry present after the first call is still inside its 24-hour
TTL at the second call — which in particular holds whenever the first
call itself recomputed and cached (a cache miss) and the second call
comes within 24 hours of the first. -/
theorem C3_theorem (st : AState) (p : Period) (t1 t2 : ℤ)
    (h : entryLive (getAnalytics st p true t1).2 p t2 = true) :
    getAnalytics (getAnalytics st p true t1).2 p true t2 =
      ((getAnalytics st p true t1).1, (getAnalytics st p true t1).2) := by
  rcases hc : cacheGet st p with _ | e
  · have hfirst : getAnalytics st p true t1 = getAnalyticsFresh st p t1 :=
      getAnalytics_of_cache_none st p true t1 hc
    rw [hfirst] at h ⊢
    apply second_read_after_fresh
    have := h
    unfold entryLive at this
    rw [show (getAnalyticsFresh st p t1).2 = cacheSet st p
        ⟨(getAnalyticsFresh st p t1).1, t1⟩ from rfl, cacheGet_cacheSet] at this
    exact of_decide_eq_true this
  · by_cases hl : t1 - e.timestamp < cacheExpiry
    · have hfirst : getAnalytics st p true t1 = (e.data, st) := by
        unfold getAnalytics
        rw [hc]
        simp [hl]
      rw [hfirst] at h ⊢
      unfold entryLive at h
      rw [hc] at h
      unfold getAnalytics
      rw [hc]
      simp [of_decide_eq_true h]
    · have hfirst : getAnalytics st p true t1 = getAnalyticsFresh st p t1 := by
        unfold getAnalytics
        rw [hc]
        simp [hl]
      rw [hfirst] at h ⊢
      apply second_read_after_fresh
      have := h
      unfold entryLive at this
      rw [show (getAnalyticsFresh st p t1).2 = cacheSet st p
          ⟨(getAnalyticsFresh st p t1).1, t1⟩ from rfl, cacheGet_cacheSet] at this
      exact of_decide_eq_true this

/-- Witness for C3: after one concrete ingestion, a first read at
instant 6 and a second at instant 7 return the identical snapshot. -/
theorem C3_witness :
    entryLive
        (getAnalytics (addSale initAState (colaSale 5) 5).1 .all true 6).2
        .all 7 = true ∧
    getAnalytics
        (getAnalytics (addSale initAState (colaSale 5) 5).1 .all true 6).2
        .all true 7 =
      ((getAnalytics (addSale initAState (colaSale 5) 5).1 .all true 6).1,
       (getAnalytics (addSale initAState (colaSale 5) 5).1 .all true 6).2) := by
  have hl : entryLive
      (getAnalytics (addSale initAState (colaSale 5) 5).1 .all true 6).2
      .all 7 = true := by decide
  exact ⟨hl, C3_theorem _ .all 6 7 hl⟩

/-! ### Shared lemmas for C4 -/

theorem mem_invSet (l : List (String × Product)) (k : String) (v : Product)
    (kp : String × Product) (h : kp ∈ invSet l k v) : kp.2 = v ∨ kp ∈ l := by
  induction l with
  | nil =>
    simp [invSet] at h
    subst h
    exact Or.inl rfl
  | cons hd tl ih =>
    unfold invSet at h
    by_cases hk : hd.1 = k
    · rw [if_pos hk] at h
      rcases List.mem_cons.mp h with h1 | h1
      · subst h1; exact Or.inl rfl
      · exact Or.inr (List.mem_cons_of_mem _ h1)
    · rw [if_neg hk] at h
      rcases List.mem_cons.mp h with h1 | h1
      · subst h1; exact Or.inr (List.mem_cons_self _ _)
      · rcases ih h1 with h2 | h2
        · exact Or.inl h2
        · exact Or.inr (List.mem_cons_of_mem _ h2)

theorem find_map_snd_mem (l : List (String × Product))
    (f : String × Product → Bool) (p : Product)
    (h : (l.find? f).map (·.2) = some p) : ∃ kp ∈ l, kp.2 = p := by
  obtain ⟨kp, hf, hp⟩ := Option.map_eq_some'.mp h
  exact ⟨kp, List.mem_of_find?_eq_some hf, hp⟩

theorem invGet_mem (l : List (String × Product)) (k : String) (p : Product)
    (h : invGet l k = some p) : ∃ kp ∈ l, kp.2 = p :=
  find_map_snd_mem l _ p h

theorem findProductByName_mem (st : InvState) (nm : String) (p : Product)
    (h : findProductByName st nm = some p) : ∃ kp ∈ st.inventory, kp.2 = p := by
  simp only [findProductByName] at h
  rcases h1 : (st.inventory.find? (fun e =>
      jsTrim (jsToLower e.2.name) = jsTrim (jsToLower nm))).map (·.2) with _ | q
  · rw [h1] at h
    exact find_map_snd_mem st.inventory _ p h
  · rw [h1] at h
    obtain rfl := (Option.some.injEq _ _).mp h
    exact find_map_snd_mem st.inventory _ _ h1

theorem validateProductData_nonneg (p : Product)
    (h : validateProductData p = []) : 0 ≤ p.currentStock := by
  by_contra hneg
  push_neg at hneg
  simp [validateProductData, hneg] at h

/-- `StocksOk` depends only on the inventory, which the alert check
never touches. -/
theorem stocksOk_checkStockLevel (st : InvState) (p : Product) (now : ℤ)
    (h : StocksOk st) : StocksOk (checkStockLevel st p now) := by
  intro kp hkp
  rw [checkStockLevel_inventory] at hkp
  exact h kp hkp

theorem stocksOk_invSet (st : InvState) (k : String) (v : Product)
    (h : StocksOk st) (hv : 0 ≤ v.currentStock) (kp : String × Product)
    (hm : kp ∈ invSet st.inventory k v) : 0 ≤ kp.2.currentStock := by
  rcases mem_invSet st.inventory k v kp hm with h1 | h1
  · rw [h1]; exact hv
  · exact h kp h1

theorem stocksOk_updateStock (st : InvState) (productId : String)
    (newStock : ℤ) (reason : StockReason) (now : ℤ) (h : StocksOk st) :
    StocksOk ((updateStock st productId newStock reason now).1) := by
  rcases hg : invGet st.inventory productId with _ | p
  · simpa [updateStock, hg] using h
  · simp only [updateStock, hg]
    apply stocksOk_checkStockLevel
    intro kp hm
    exact stocksOk_invSet st productId _ h (le_max_left 0 newStock) kp hm

theorem stocksOk_addProduct (st : InvState) (pd : ProductInput) (now : ℤ)
    (h : StocksOk st) : StocksOk ((addProduct st pd now).1) := by
  by_cases hv : validateProductData (buildProduct pd now) = []
  · simp only [addProduct, hv, if_pos]
    apply stocksOk_checkStockLevel
    intro kp hm
    exact stocksOk_invSet st _ _ h (validateProductData_nonneg _ hv) kp hm
  · simpa [addProduct, hv] using h

theorem stocksOk_handleSaleEvent (st : InvState) (sd : SaleObj) (now : ℤ)
    (h : StocksOk st) : StocksOk (handleSaleEvent st sd now) := by
  unfold handleSaleEvent
  rcases hn : sd.productName with _ | nm
  · exact h
  · by_cases hne : nm = ""
    · simpa [hne] using h
    · rcases hf : findProductByName st nm with _ | p
      · by_cases hat : st.autoTrack
        · simpa [hne, hf, hat] using stocksOk_addProduct st _ now h
        · simpa [hne, hf, hat] using h
      · have hp : 0 ≤ p.currentStock := by
          obtain ⟨kp, hkp, he⟩ := findProductByName_mem st nm p hf
          rw [← he]
          exact h kp hkp
        simp only [hne, hf, if_neg hne]
        apply stocksOk_updateStock
        intro kp hm
        exact stocksOk_invSet st p.id
          { p with totalSales := p.totalSales + 1 } h hp kp hm

theorem stocksOk_run (ops : List (InvOp × ℤ)) (st : InvState)
    (h : StocksOk st) : StocksOk (runInvOps st ops) := by
  induction ops generalizing st with
  | nil => exact h
  | cons op t ih =>
    refine ih _ ?_
    rcases op with ⟨o, now⟩
    cases o with
    | saleEv sd => exact stocksOk_handleSaleEvent st sd now h
    | setStock productId v reason => exact stocksOk_updateStock st productId v reason now h

/-! ### C4 — stock never negative, decrements and writes clamp at 0 -/

/-- C4: starting from any inventory whose stocks are nonnegative, every
sequence of sale decrements (`handleSaleEvent`) and stock writes
(`updateStock`) keeps every record's `currentStock` nonnegative; an
`updateStock` with a negative value stores stock 0; and a matching sale
against a record at stock 0 leaves that record's stock at 0. -/
theorem C4_theorem (st : InvState) (h : StocksOk st) :
    (∀ ops, StocksOk (runInvOps st ops)) ∧
    (∀ productId newStock reason now p, newStock < 0 →
      invGet st.inventory productId = some p →
      (invGet ((updateStock st productId newStock reason now).1).inventory
          productId).map (·.currentStock) = some 0) ∧
    (∀ sd nm now p, sd.productName = some nm → nm ≠ "" →
      findProductByName st nm = some p → p.currentStock = 0 →
      (invGet (handleSaleEvent st sd now).inventory p.id).map
          (·.currentStock) = some 0) := by
  refine ⟨fun ops => stocksOk_run ops st h, ?_, ?_⟩
  · intro productId newStock reason now p hneg hg
    simp only [updateStock, hg]
    rw [checkStockLevel_inventory, invGet_invSet_self, Option.map_some']
    simp [max_eq_left (le_of_lt hneg)]
  · intro sd nm now p hn hne hf hz
    unfold handleSaleEvent
    rw [hn]
    simp only [if_neg hne, hf]
    have hb : invGet (invSet st.inventory p.id
        { p with totalSales := p.totalSales + 1 }) p.id =
        some { p with totalSales := p.totalSales + 1 } :=
      invGet_invSet_self _ _ _
    simp only [updateStock, hb]
    rw [checkStockLevel_inventory, invGet_invSet_self, Option.map_some']
    simp [hz]

/-- Witness for C4: a concrete store with one record at stock 1 stays
nonnegative across two sales and a negative manual write; a direct
negative write stores 0; a sale against the record at stock 0 leaves it
at 0. -/
theorem C4_witness :
    StocksOk (addProduct initInvState colaProductInput 5).1 ∧
    StocksOk (runInvOps (addProduct initInvState colaProductInput 5).1
      [(.saleEv colaSaleObj, 10), (.saleEv colaSaleObj, 11),
       (.setStock "product_5" (-3) .manual, 12)]) ∧
    (invGet ((updateStock (addProduct initInvState colaProductInput 5).1
        "product_5" (-3) .manual 12).1).inventory "product_5").map
        (·.currentStock) = some 0 ∧
    (invGet (handleSaleEvent
        (handleSaleEvent (addProduct initInvState colaProductInput 5).1
          colaSaleObj 10) colaSaleObj 11).inventory "product_5").map
        (·.currentStock) = some 0 := by
  have hOk : StocksOk (addProduct initInvState colaProductInput 5).1 := by
    decide
  have h := C4_theorem _ hOk
  have hOk2 : StocksOk (handleSaleEvent
      (addProduct initInvState colaProductInput 5).1 colaSaleObj 10) := by
    decide
  have h2 := C4_theorem _ hOk2
  refine ⟨hOk, h.1 _, ?_, ?_⟩
  · exact h.2.1 "product_5" (-3) .manual 12 colaRecord (by norm_num)
      (by decide)
  · have := h2.2.2 colaSaleObj "cola" 11 colaRecordSold rfl (by decide)
      (by decide) rfl
    simpa using this

/-! ### Shared lemmas for C5 -/

theorem one_le_two_pow (k : ℕ) : (1 : ℚ) ≤ 2 ^ k := by
  induction k with
  | zero => norm_num
  | succ n ih => rw [pow_succ]; nlinarith

/-- Consecutive capped backoff delays are non-decreasing as soon as the
base delay dominates the jitter bound. -/
theorem delay_mono (base j1 j2 : ℚ) (k : ℕ) (hb : 1000 ≤ base)
    (h1 : j1 < 1000) (h2 : 0 ≤ j2) :
    min (base * 2 ^ k + j1) 30000 ≤ min (base * 2 ^ (k + 1) + j2) 30000 := by
  apply min_le_min _ le_rfl
  have hp : (1 : ℚ) ≤ 2 ^ k := one_le_two_pow k
  have hbp : base ≤ base * 2 ^ k := le_mul_of_one_le_right (by linarith) hp
  rw [pow_succ]
  nlinarith

theorem reconnectRun_succ_stop (jit : ℕ → ℚ) (st : WSState) (n : ℕ)
    (hm : st.isManualClose = false)
    (hmax : st.maxReconnectAttempts ≤ st.reconnectAttempts) :
    reconnectRun jit st (n + 1) = ([], 1) := by
  simp [reconnectRun, handleReconnect, hm, hmax]

theorem reconnectRun_succ_go (jit : ℕ → ℚ) (st : WSState) (n : ℕ)
    (hm : st.isManualClose = false)
    (hlt : st.reconnectAttempts < st.maxReconnectAttempts) :
    reconnectRun jit st (n + 1) =
      (min (st.reconnectDelay * 2 ^ st.reconnectAttempts
          + jit st.reconnectAttempts) 30000 ::
          (reconnectRun jit (reconnectStep st) n).1,
       (reconnectRun jit (reconnectStep st) n).2) := by
  simp [reconnectRun, handleReconnect, hm, Nat.not_le.mpr hlt]

/-! ### C5 — reconnection backoff and the give-up signal -/

/-- C5 counterexample: with a configured base delay of 1 ms (below the
1000 ms jitter bound) and jitter draws of 999 ms then 0 ms, the computed
delays of an all-failures run are 1000 ms then 2 ms — a decreasing
sequence, so the claimed monotonicity does not hold for every configured
base delay and jitter values. -/
theorem C5_counterexample :
    (reconnectRun spikeJitter lowBaseWS 5).1 = [1000, 2] ∧
    ¬ List.Chain' (· ≤ ·) (reconnectRun spikeJitter lowBaseWS 5).1 := by
  have h : (reconnectRun spikeJitter lowBaseWS 5).1 = [1000, 2] := by decide
  refine ⟨h, ?_⟩
  rw [h]
  intro hc
  have h12 := (List.chain'_cons.mp hc).1
  norm_num at h12

/-- C5 amended: in any all-failures run of the reconnection policy whose
configured base delay is at least the 1000 ms jitter bound (the shipped
configuration is 3000 ms) and whose jitter draws lie in [0, 1000), the
scheduled delays form a non-decreasing sequence, each capped at
30000 ms; the run schedules exactly `maxReconnectAttempts` minus the
starting attempt count delays; and once the maximum is exceeded the
`maxReconnectAttemptsReached` signal is dispatched exactly once and no
further reconnection is scheduled. -/
theorem C5_theorem (jit : ℕ → ℚ) (st : WSState) (n : ℕ)
    (hm : st.isManualClose = false)
    (hb : 1000 ≤ st.reconnectDelay)
    (hj : ∀ k, 0 ≤ jit k ∧ jit k < 1000)
    (hn : st.maxReconnectAttempts - st.reconnectAttempts < n) :
    List.Chain' (· ≤ ·) (reconnectRun jit st n).1 ∧
    (∀ d ∈ (reconnectRun jit st n).1, d ≤ 30000) ∧
    (reconnectRun jit st n).2 = 1 ∧
    (reconnectRun jit st n).1.length =
      st.maxReconnectAttempts - st.reconnectAttempts := by
  induction n generalizing st with
  | zero => omega
  | succ n ih =>
    by_cases hmax : st.maxReconnectAttempts ≤ st.reconnectAttempts
    · rw [reconnectRun_succ_stop jit st n hm hmax]
      exact ⟨List.chain'_nil, by simp, rfl, by simp; omega⟩
    · push_neg at hmax
      rw [reconnectRun_succ_go jit st n hm hmax]
      have hm' : (reconnectStep st).isManualClose = false := hm
      have hb' : 1000 ≤ (reconnectStep st).reconnectDelay := hb
      have hn' : (reconnectStep st).maxReconnectAttempts -
          (reconnectStep st).reconnectAttempts < n := by
        simp only [reconnectStep]
        omega
      obtain ⟨ihc, ihb, ihs, ihl⟩ := ih (reconnectStep st) hm' hb' hn'
      refine ⟨?_, ?_, ihs, ?_⟩
      · rw [List.chain'_cons']
        refine ⟨?_, ihc⟩
        intro y hy
        by_cases hmax2 : (reconnectStep st).maxReconnectAttempts ≤
            (reconnectStep st).reconnectAttempts
        · have hnil : (reconnectRun jit (reconnectStep st) n).1 = [] := by
            cases n with
            | zero => rfl
            | succ m => rw [reconnectRun_succ_stop jit _ m hm' hmax2]
          rw [hnil] at hy
          simp at hy
        · push_neg at hmax2
          cases n with
          | zero => omega
          | succ m =>
            rw [reconnectRun_succ_go jit _ m hm' hmax2] at hy
            simp only [List.head?_cons, Option.mem_def, Option.some.injEq] at hy
            subst hy
            show min (st.reconnectDelay * 2 ^ st.reconnectAttempts
              + jit st.reconnectAttempts) 30000 ≤ _
            have : (reconnectStep st).reconnectDelay = st.reconnectDelay := rfl
            have ha : (reconnectStep st).reconnectAttempts =
              st.reconnectAttempts + 1 := rfl
            rw [this, ha]
            exact delay_mono st.reconnectDelay _ _ st.reconnectAttempts hb
              (hj st.reconnectAttempts).2 (hj (st.reconnectAttempts + 1)).1
      · intro d hd
        rcases List.mem_cons.mp hd with h1 | h1
        · rw [h1]; exact min_le_right _ _
        · exact ihb d h1
      · have ha : (reconnectStep st).reconnectAttempts =
          st.reconnectAttempts + 1 := rfl
        have hmx : (reconnectStep st).maxReconnectAttempts =
          st.maxReconnectAttempts := rfl
        simp only [List.length_cons, ihl, ha, hmx]
        omega

/-- Witness for C5 at the shipped configuration (base 3000 ms, max 10
attempts) and constant 500 ms jitter: the ten delays are non-decreasing
and capped, and the give-up signal fires exactly once. -/
theorem C5_witness :
    List.Chain' (· ≤ ·) (reconnectRun (fun _ => 500) initWSState 11).1 ∧
    (∀ d ∈ (reconnectRun (fun _ => 500) initWSState 11).1, d ≤ 30000) ∧
    (reconnectRun (fun _ => 500) initWSState 11).2 = 1 ∧
    (reconnectRun (fun _ => 500) initWSState 11).1.length = 10 := by
  have h := C5_theorem (fun _ => 500) initWSState 11 rfl
    (by norm_num [initWSState])
    (fun k => ⟨by norm_num, by norm_num⟩) (by decide)
  exact h

end Vending
